import Mathlib

/-!
Verification of the PicoCalc SD bootloader core against its specification.

The definitions below are a shallow embedding of the C sources:
  * `src/src/managers/event_bus.c`  — cross-core event channel
  * `src/src/managers/fs_manager.c` — filesystem lifecycle manager
  * `src/src/managers/msc_manager.c`— MSC core-1 task loop
  * `src/src/usb_msc/usb_msc.c`     — SCSI READ10/WRITE10 adapter
  * `src/src/main.c`                — flash loader, launcher, mode loop
Hardware/SDK services (the multicore FIFO, the SD block device, flash
erase/program, the display) are modelled as explicit state and traces of
emitted operations.  Constants that live in `config.h` (not part of the
checked sources) are parameters of the model.
-/

namespace PicocalcSDBoot

/-! ## Event bus (`src/src/managers/event_bus.c`)

The RP2040 inter-core SIO FIFO is modelled as a bounded queue of raw
`uint32` words; the hardware FIFO is 8 entries deep.  Event codes follow
the `event_type_t` enum of `event_bus.h`: `EVENT_NONE = 0`,
`EVENT_MSC_START = 1`, `EVENT_MSC_EXIT = 2`, `EVENT_ESC_PRESSED = 3`,
`EVENT_CARD_REMOVED = 4`, `EVENT_MAX = 5`.  `event_bus_post` receives an
`event_type_t` value, which as a C enum may hold any integer, hence the
`Int` argument. -/

def EVENT_NONE : Int := 0
def EVENT_MSC_START : Int := 1
def EVENT_MSC_EXIT : Int := 2
def EVENT_ESC_PRESSED : Int := 3
def EVENT_CARD_REMOVED : Int := 4
def EVENT_MAX : Int := 5

/-- Depth of the RP2040 SIO inter-core FIFO (hardware constant). -/
def SIO_FIFO_DEPTH : Nat := 8

/-- The inter-core FIFO: front of the list is the next word popped. -/
structure Fifo where
  q : List Nat
deriving DecidableEq, Repr

def multicore_fifo_wready (f : Fifo) : Bool :=
  f.q.length < SIO_FIFO_DEPTH

def multicore_fifo_rvalid (f : Fifo) : Bool :=
  !f.q.isEmpty

/-- `event_bus_post` (event_bus.c:11-20): reject out-of-range events,
then push only if the FIFO has space.  Returns the acceptance flag and
the updated FIFO. -/
def event_bus_post (event : Int) (f : Fifo) : Bool × Fifo :=
  if event ≤ EVENT_NONE ∨ EVENT_MAX ≤ event then
    (false, f)
  else if multicore_fifo_wready f then
    (true, ⟨f.q ++ [event.toNat]⟩)
  else
    (false, f)

/-- `event_bus_available` (event_bus.c:29-31). -/
def event_bus_available (f : Fifo) : Bool :=
  multicore_fifo_rvalid f

/-- `event_bus_get` (event_bus.c:33-42): non-blocking pop; an empty FIFO
or a dequeued word outside `(EVENT_NONE, EVENT_MAX)` yields `EVENT_NONE`
(the out-of-range word is discarded).  Returns the delivered code and the
updated FIFO. -/
def event_bus_get (f : Fifo) : Nat × Fifo :=
  match f.q with
  | [] => (EVENT_NONE.toNat, f)
  | v :: rest => (if 0 < v ∧ v < EVENT_MAX.toNat then v else EVENT_NONE.toNat, ⟨rest⟩)

/-- Post a whole list of events in order (left to right). -/
def event_bus_postAll (events : List Int) (f : Fifo) : Fifo :=
  events.foldl (fun acc e => (event_bus_post e acc).2) f

/-! ## Filesystem lifecycle manager (`src/src/managers/fs_manager.c`)

The module-static `mounted` flag is the manager's state.  The physical
environment (card-detect line, success of `fs_init`) is passed in
explicitly. -/

structure FsmState where
  mounted : Bool
deriving DecidableEq, Repr

/-- `FSManager_mount` (fs_manager.c:88-100): no-op success when already
mounted; fail without state change when no card is present; otherwise
mount iff `fs_init()` succeeds. -/
def FSManager_mount (cardInserted fsInitOk : Bool) (s : FsmState) : Bool × FsmState :=
  if s.mounted then
    (true, s)
  else if !cardInserted then
    (false, s)
  else if fsInitOk then
    (true, ⟨true⟩)
  else
    (false, s)

/-- `FSManager_unmount` (fs_manager.c:102-107): deinit only when mounted. -/
def FSManager_unmount (s : FsmState) : FsmState :=
  if s.mounted then ⟨false⟩ else s

/-! ## Application validity check (`src/src/main.c:206-222`)

`is_valid_application` reads the two header words at the base of the
application flash region: word 0 is the initial stack pointer, word 1 the
reset vector.  `MAX_RAM` is `0x20040000` (RP2040) or `0x20080000`
(RP2350), selected at build time in main.c:38-44; `SD_BOOT_FLASH_OFFSET`
comes from `config.h` and `PICO_FLASH_SIZE_BYTES` from the SDK board
header, so all three are parameters of the model. -/

structure Config where
  /-- `SD_BOOT_FLASH_OFFSET` (config.h): flash offset of the app region. -/
  sdBootFlashOffset : Nat
  /-- `MAX_APP_SIZE` (config.h): capacity of the app region in bytes. -/
  maxAppSize : Nat
  /-- `MAX_RAM` (main.c:40 / main.c:43): end of on-chip RAM. -/
  maxRam : Nat
  /-- `PICO_FLASH_SIZE_BYTES` (SDK board header): total flash size. -/
  flashSizeBytes : Nat
deriving Repr

/-- `XIP_BASE`: flash is memory-mapped at this address (the literal
`0x10000000` used in main.c:217). -/
def XIP_BASE : Nat := 0x10000000

/-- `is_valid_application` (main.c:206-222), as a function of the two
header words. -/
def is_valid_application (cfg : Config) (stack_pointer reset_vector : Nat) : Bool :=
  if stack_pointer < 0x20000000 ∨ stack_pointer > cfg.maxRam then
    false
  else if reset_vector < 0x10000000 + cfg.sdBootFlashOffset ∨
      reset_vector > 0x10000000 + cfg.flashSizeBytes then
    false
  else
    true

/-! ## Flash program loader (`src/src/main.c:102-187`)

Side effects of the code on core A are recorded as a trace of `Action`s:
display status updates, sleeps, flash erase/program calls, the final
application jump and the watchdog reboot.  `flashProgram` carries the
programmed bytes so flash contents after a load can be reconstructed. -/

inductive Action where
  | setStatus (msg : String)
  | sleepMs (ms : Nat)
  | flashErase (off len : Nat)
  | flashProgram (off : Nat) (data : List Nat)
  | launch
  | watchdogReboot
deriving DecidableEq, Repr

/-- `FLASH_SECTOR_SIZE` (pico-sdk hardware constant): 4096 bytes. -/
def FLASH_SECTOR_SIZE : Nat := 4096

/-- Outcome of `load_program`; the C function returns `bool`, with one
constructor here per distinct `return` site:
`openFailed` = main.c:124, `invalidSize` = main.c:136/144 (size query
failed or `file_size <= 0`), `tooLarge` = main.c:151, `seekFailed` =
main.c:159 (rewind failed), `outOfBounds` = main.c:174 (running total
would exceed `MAX_APP_SIZE`), `ok` = main.c:186. -/
inductive LoadResult where
  | openFailed
  | invalidSize
  | tooLarge
  | seekFailed
  | outOfBounds
  | ok
deriving DecidableEq, Repr

/-- The erase/program loop of `load_program` (main.c:162-183).  `fread`
into a `FLASH_SECTOR_SIZE` buffer returns `min FLASH_SECTOR_SIZE
remaining` bytes, so the file is consumed in full-sector chunks with at
most one short final chunk.  Each iteration first checks that
`program_size + len` stays within `MAX_APP_SIZE`, then erases and
programs the sector at `SD_BOOT_FLASH_OFFSET + program_size`. -/
def load_loop (base maxApp : Nat) (bytes : List Nat) (program_size : Nat) :
    LoadResult × List Action :=
  if h : bytes = [] then
    (.ok, [])
  else if program_size + (bytes.take FLASH_SECTOR_SIZE).length > maxApp then
    (.outOfBounds, [])
  else
    ((load_loop base maxApp (bytes.drop FLASH_SECTOR_SIZE)
        (program_size + (bytes.take FLASH_SECTOR_SIZE).length)).1,
      .flashErase (base + program_size) FLASH_SECTOR_SIZE ::
      .flashProgram (base + program_size) (bytes.take FLASH_SECTOR_SIZE) ::
      (load_loop base maxApp (bytes.drop FLASH_SECTOR_SIZE)
        (program_size + (bytes.take FLASH_SECTOR_SIZE).length)).2)
termination_by bytes.length
decreasing_by
  all_goals
    have : bytes.length ≠ 0 := fun hz => h (List.length_eq_zero.mp hz)
    simp only [List.length_drop, FLASH_SECTOR_SIZE]
    omega

/-- Environment of one `load_program` call: success of `fopen`, of the
two `fseek`s, and of the `ftell` size query. -/
structure LoadEnv where
  openOk : Bool
  seekEndOk : Bool
  ftellOk : Bool
  seekSetOk : Bool
deriving DecidableEq, Repr

/-- `load_program` (main.c:118-187).  The file's bytes are `content`;
`ftell` reports their count, or `-1` when the query fails.  The
`is_same_existing_program` call at main.c:126 only reads the file and
flash and its result is unused, so it contributes nothing to the trace.
No flash operation precedes the size checks. -/
def load_program (cfg : Config) (env : LoadEnv) (content : List Nat) :
    LoadResult × List Action :=
  if !env.openOk then
    (.openFailed, [])
  else if !env.seekEndOk then
    (.invalidSize, [])
  else
    let file_size : Int := if env.ftellOk then (content.length : Int) else -1
    if file_size ≤ 0 then
      (.invalidSize, [])
    else if file_size > (cfg.maxAppSize : Int) then
      (.tooLarge, [])
    else if !env.seekSetOk then
      (.seekFailed, [])
    else
      load_loop cfg.sdBootFlashOffset cfg.maxAppSize content 0

/-! ### Flash contents

Flash is a byte map indexed by offset from the start of flash.  Erase
sets a range to `0xFF`; program overwrites a range with the given data;
all other actions leave flash alone. -/

def applyAction (flash : Nat → Nat) : Action → (Nat → Nat)
  | .flashErase off len =>
      fun a => if off ≤ a ∧ a < off + len then 0xFF else flash a
  | .flashProgram off data =>
      fun a => if off ≤ a ∧ a < off + data.length then data.getD (a - off) 0 else flash a
  | _ => flash

def applyTrace (flash : Nat → Nat) (tr : List Action) : Nat → Nat :=
  tr.foldl applyAction flash

/-- Little-endian 32-bit word at flash offset `off` (the Cortex-M reads
the vector table this way). -/
def readWord32 (flash : Nat → Nat) (off : Nat) : Nat :=
  flash off + 0x100 * flash (off + 1) + 0x10000 * flash (off + 2) +
    0x1000000 * flash (off + 3)

/-! ## `load_firmware_by_path` (`src/src/main.c:224-264`)

After the load attempt, `is_valid_application` is evaluated on whatever
is then resident at `XIP_BASE + SD_BOOT_FLASH_OFFSET`; the launch is
taken when `load_success || has_valid_app`.  Returns the emitted action
trace together with the flash contents after the call. -/

def load_firmware_by_path (cfg : Config) (env : LoadEnv) (content : List Nat)
    (flash : Nat → Nat) : List Action × (Nat → Nat) :=
  let r := load_program cfg env content
  let load_success := r.1 = .ok
  let flash' := applyTrace flash r.2
  let has_valid_app := is_valid_application cfg
    (readWord32 flash' cfg.sdBootFlashOffset)
    (readWord32 flash' (cfg.sdBootFlashOffset + 4))
  let tail :=
    if load_success ∨ has_valid_app then
      [.setStatus "STAT: launching app...", .sleepMs 100, .launch]
    else
      [.setStatus "ERR: No valid app", .sleepMs 2000, .watchdogReboot]
  (.setStatus "STAT: loading app..." :: r.2 ++ tail, flash')

/-! ## `final_selection_callback` (`src/src/main.c:266-290`)

The path is a C string, modelled as its character list.  The extension
test is `path_len < ext_len || strcmp(path + path_len - ext_len, ".bin")
!= 0`; `strcmp` on the length-4 tail equals comparing the last four
characters with `".bin"`. -/

def final_selection_callback (cfg : Config) (env : LoadEnv) (content : List Nat)
    (flash : Nat → Nat) (path : List Char) : List Action :=
  if path.length < 4 ∨ path.drop (path.length - 4) ≠ ['.', 'b', 'i', 'n'] then
    [.setStatus "Err: FILE is not a .bin file"]
  else
    .setStatus (String.mk ("SEL: ".data ++ path)) :: .sleepMs 200 ::
      (load_firmware_by_path cfg env content flash).1

/-! ## USB mass-storage adapter (`src/src/usb_msc/usb_msc.c`)

State of the adapter: the two module-static 512-byte sector buffers
(`msc_read_buffer`, `msc_write_buffer`, modelled as byte maps) and the
cached LBAs.  The environment carries the card-detect line, the block
device contents (`dev lba i` = byte `i` of sector `lba`), the success of
its read/program calls, and `msc_block_size`.  Calls to the block device
are recorded as a trace of `DevOp`s. -/

structure MscState where
  readBuf : Nat → Nat
  writeBuf : Nat → Nat
  lastReadLba : Nat
  lastWriteLba : Nat

structure MscEnv where
  cardInserted : Bool
  dev : Nat → Nat → Nat
  devReadOk : Bool
  devProgramOk : Bool
  blockSize : Nat

inductive DevOp where
  | read (lba : Nat)
  | program (lba : Nat)
deriving DecidableEq, Repr

/-- SCSI sense data set via `tud_msc_set_sense`: (key, asc, ascq).
`SCSI_SENSE_NOT_READY = 0x02`. -/
def SENSE_NOT_READY : Nat × Nat × Nat := (0x02, 0x3A, 0x00)

/-- Result of one READ10/WRITE10 callback: the `int32_t` return value,
the adapter state after the call, the block-device operations issued,
the sense data set (if any), and for READ10 the bytes copied into the
host buffer (`out j` = byte `j`, meaningful for `j < bufsize`). -/
structure MscCbResult where
  ret : Int
  st : MscState
  ops : List DevOp
  sense : Option (Nat × Nat × Nat)
  out : Option (Nat → Nat)

/-- `tud_msc_read10_cb` (usb_msc.c:127-146): fail with NOT READY when the
card is absent; on `offset == 0` read the whole sector `lba` into
`msc_read_buffer` (returning `false` ≈ 0 if the device read fails); then
copy `bufsize` bytes starting at `offset` out of `msc_read_buffer`. -/
def tud_msc_read10_cb (env : MscEnv) (st : MscState) (lba offset bufsize : Nat) :
    MscCbResult :=
  if !env.cardInserted then
    { ret := -1, st := st, ops := [], sense := some SENSE_NOT_READY, out := none }
  else if offset = 0 then
    if env.devReadOk then
      let buf' := fun i => if i < 512 then env.dev lba i else st.readBuf i
      let st' := { st with readBuf := buf', lastReadLba := lba }
      { ret := 1, st := st', ops := [.read lba], sense := none,
        out := some fun j => buf' (offset + j) }
    else
      { ret := 0, st := st, ops := [.read lba], sense := none, out := none }
  else
    { ret := 1, st := st, ops := [], sense := none,
      out := some fun j => st.readBuf (offset + j) }

/-- `tud_msc_write10_cb` (usb_msc.c:161-184): fail with NOT READY when
the card is absent; on `offset == 0` latch `lba` into
`msc_last_write_lba`; accumulate the host bytes into `msc_write_buffer`;
once `offset + bufsize` reaches `msc_block_size`, issue one program call
at the latched LBA. -/
def tud_msc_write10_cb (env : MscEnv) (st : MscState) (lba offset : Nat)
    (data : Nat → Nat) (bufsize : Nat) : MscCbResult :=
  if !env.cardInserted then
    { ret := -1, st := st, ops := [], sense := some SENSE_NOT_READY, out := none }
  else
    let lastW := if offset = 0 then lba else st.lastWriteLba
    let wbuf := fun i => if offset ≤ i ∧ i < offset + bufsize then data (i - offset)
      else st.writeBuf i
    let st' := { st with writeBuf := wbuf, lastWriteLba := lastW }
    if offset + bufsize ≥ env.blockSize then
      if env.devProgramOk then
        { ret := 1, st := st', ops := [.program lastW], sense := none, out := none }
      else
        { ret := 0, st := st', ops := [.program lastW], sense := none, out := none }
    else
      { ret := 1, st := st', ops := [], sense := none, out := none }

/-! ## Mode arbitration (`src/src/main.c:352-397` with
`src/src/managers/msc_manager.c:34-69`)

The main loop alternates between the browsing UI (filesystem mounted)
and USB mass-storage mode.  Ownership of the SD block device is
concrete in the code: the filesystem side holds it while `sd != NULL`
(`fs_init`/`fs_deinit`, main.c:55-99) and the MSC side while
`msc_blockdev != NULL` (`usb_msc_init`/`usb_msc_stop`, usb_msc.c:43/225).
The MSC task loop's exit flag is set by `EVENT_ESC_PRESSED` /
`EVENT_CARD_REMOVED` from the event bus (msc_manager.c:50-59), after
which `usb_msc_stop` releases the device before the main loop calls
`fs_init` again. -/

inductive Loc where
  /-- inside `text_directory_ui_run` with the filesystem mounted. -/
  | browsing
  /-- after `fs_deinit()` (main.c:356), before `usb_msc_init()`. -/
  | deinited
  /-- inside the MSC task loop (`tud_task` iterations). -/
  | mscActive
  /-- after `usb_msc_stop()` (main.c:379), before `fs_init()`. -/
  | mscStopped
  /-- after `watchdog_reboot` on remount failure (main.c:391). -/
  | rebooting
deriving DecidableEq, Repr

structure SysState where
  loc : Loc
  /-- filesystem side holds the SD block device (`sd != NULL`). -/
  fsOwns : Bool
  /-- MSC side holds the SD block device (`msc_blockdev != NULL`). -/
  mscOwns : Bool
  /-- `exit_flag` of the MSC task loop (msc_manager.c:8). -/
  exitFlag : Bool
deriving DecidableEq, Repr

/-- State at the top of the main loop, after the startup `fs_init`
(main.c:337): browsing with the filesystem owning the device. -/
def initState : SysState :=
  ⟨.browsing, true, false, false⟩

/-- One transition of the combined core-A loop / core-B MSC task. -/
inductive Step : SysState → SysState → Prop where
  /-- `text_directory_ui_run` returns and `fs_deinit()` frees the
  filesystem's block device (main.c:354-356). -/
  | uiExit (f m e : Bool) : Step ⟨.browsing, f, m, e⟩ ⟨.deinited, false, m, e⟩
  /-- the MSC entry clears `exit_flag` and `usb_msc_init()` acquires the
  block device (msc_manager.c:36-39, usb_msc.c:43). -/
  | mscInit (f m e : Bool) : Step ⟨.deinited, f, m, e⟩ ⟨.mscActive, f, true, false⟩
  /-- a `tud_task()` iteration with no exit event (msc_manager.c:42-61). -/
  | tudTask (f m : Bool) : Step ⟨.mscActive, f, m, false⟩ ⟨.mscActive, f, m, false⟩
  /-- `EVENT_ESC_PRESSED` or `EVENT_CARD_REMOVED` dequeued: the loop
  sets `exit_flag` (msc_manager.c:50-56); covers card removal during
  MSC mode. -/
  | exitEvent (f m : Bool) : Step ⟨.mscActive, f, m, false⟩ ⟨.mscActive, f, m, true⟩
  /-- the task loop observes `exit_flag` and `usb_msc_stop()` releases
  the block device (msc_manager.c:63-64, usb_msc.c:222-229). -/
  | mscStop (f m : Bool) : Step ⟨.mscActive, f, m, true⟩ ⟨.mscStopped, f, false, true⟩
  /-- remount succeeds: `fs_init()` reacquires the device and the loop
  returns to browsing (main.c:388-396). -/
  | remountOk (f m e : Bool) : Step ⟨.mscStopped, f, m, e⟩ ⟨.browsing, true, m, e⟩
  /-- remount fails: `watchdog_reboot` (main.c:389-392). -/
  | remountFail (f m e : Bool) : Step ⟨.mscStopped, f, m, e⟩ ⟨.rebooting, f, m, e⟩

/-- States reachable from the post-startup state. -/
inductive Reachable : SysState → Prop where
  | init : Reachable initState
  | step {s s' : SysState} : Reachable s → Step s s' → Reachable s'

/-! ### Observations on action traces

Measurement functions used to state properties of the loader's
erase/program call sequence. -/

/-- Offset targeted by a flash call; `none` for non-flash actions. -/
def actionOffset : Action → Option Nat
  | .flashErase o _ => some o
  | .flashProgram o _ => some o
  | _ => none

/-- Offset targeted by a flash erase call only. -/
def eraseOffset : Action → Option Nat
  | .flashErase o _ => some o
  | _ => none

/-- Offsets of all flash erase/program calls of a trace, in call order. -/
def writeOffsets (tr : List Action) : List Nat :=
  tr.filterMap actionOffset

/-- Offsets of the flash erase calls of a trace, in call order. -/
def eraseOffsets (tr : List Action) : List Nat :=
  tr.filterMap eraseOffset

/-- Concrete configuration used in witnesses: an application region of
eight sectors based at flash offset 8192, RP2040 RAM bound, 2 MiB
flash. -/
def cfgW : Config := ⟨8192, 32768, 0x20040000, 0x200000⟩

/-- Environment in which every file operation succeeds. -/
def envW : LoadEnv := ⟨true, true, true, true⟩

/-! ## Theorems -/

/-- Helper: an erase-call offset is also a write-call offset. -/
lemma mem_writeOffsets_of_mem_eraseOffsets {tr : List Action} {o : Nat}
    (h : o ∈ eraseOffsets tr) : o ∈ writeOffsets tr := by
  rw [eraseOffsets, List.mem_filterMap] at h
  obtain ⟨a, ha, hoa⟩ := h
  rw [writeOffsets, List.mem_filterMap]
  refine ⟨a, ha, ?_⟩
  cases a <;> simp [eraseOffset, actionOffset] at hoa ⊢ <;> exact hoa

/-- Helper: invariant of the erase/program loop, by strong induction on
the remaining bytes.  From an aligned running offset `program_size`, all
emitted flash calls target offsets in
`[base + program_size, base + maxApp)`, sector-aligned relative to
`base`; write offsets are non-decreasing, erase offsets strictly
increasing; every action in the trace is a flash call; and the first
write offset, if any, is exactly `base + program_size`. -/
lemma load_loop_trace_invariant (base maxApp : Nat) :
    ∀ (n : Nat) (bytes : List Nat), bytes.length ≤ n →
      ∀ program_size : Nat, program_size % FLASH_SECTOR_SIZE = 0 →
        (∀ o ∈ writeOffsets (load_loop base maxApp bytes program_size).2,
            base + program_size ≤ o ∧ o < base + maxApp ∧
              (o - base) % FLASH_SECTOR_SIZE = 0)
        ∧ List.Pairwise (· ≤ ·) (writeOffsets (load_loop base maxApp bytes program_size).2)
        ∧ List.Pairwise (· < ·) (eraseOffsets (load_loop base maxApp bytes program_size).2)
        ∧ (∀ a ∈ (load_loop base maxApp bytes program_size).2, actionOffset a ≠ none)
        ∧ (writeOffsets (load_loop base maxApp bytes program_size).2 = [] ∨
            ∃ t, writeOffsets (load_loop base maxApp bytes program_size).2 =
              (base + program_size) :: t) := by
  intro n
  induction n with
  | zero =>
    intro bytes hlen program_size hps
    have hb : bytes = [] := List.length_eq_zero.mp (Nat.le_zero.mp hlen)
    subst hb
    rw [load_loop.eq_def]
    simp [writeOffsets, eraseOffsets]
  | succ n ih =>
    intro bytes hlen program_size hps
    by_cases hb : bytes = []
    · subst hb
      rw [load_loop.eq_def]
      simp [writeOffsets, eraseOffsets]
    · rw [load_loop.eq_def, dif_neg hb]
      have hlen1 : 1 ≤ bytes.length :=
        Nat.one_le_iff_ne_zero.mpr (fun hz => hb (List.length_eq_zero.mp hz))
      have htake : (bytes.take FLASH_SECTOR_SIZE).length = min FLASH_SECTOR_SIZE bytes.length :=
        List.length_take _ _
      have hsec : FLASH_SECTOR_SIZE = 4096 := rfl
      by_cases hover : program_size + (bytes.take FLASH_SECTOR_SIZE).length > maxApp
      · rw [if_pos hover]
        simp [writeOffsets, eraseOffsets]
      · rw [if_neg hover]
        have hlenpos : 1 ≤ (bytes.take FLASH_SECTOR_SIZE).length := by omega
        have hlenle : (bytes.take FLASH_SECTOR_SIZE).length ≤ FLASH_SECTOR_SIZE := by omega
        have Htr :
            (∀ o ∈ writeOffsets (load_loop base maxApp (bytes.drop FLASH_SECTOR_SIZE)
                  (program_size + (bytes.take FLASH_SECTOR_SIZE).length)).2,
                base + (program_size + (bytes.take FLASH_SECTOR_SIZE).length) ≤ o ∧
                  o < base + maxApp ∧ (o - base) % FLASH_SECTOR_SIZE = 0)
            ∧ List.Pairwise (· ≤ ·)
                (writeOffsets (load_loop base maxApp (bytes.drop FLASH_SECTOR_SIZE)
                  (program_size + (bytes.take FLASH_SECTOR_SIZE).length)).2)
            ∧ List.Pairwise (· < ·)
                (eraseOffsets (load_loop base maxApp (bytes.drop FLASH_SECTOR_SIZE)
                  (program_size + (bytes.take FLASH_SECTOR_SIZE).length)).2)
            ∧ (∀ a ∈ (load_loop base maxApp (bytes.drop FLASH_SECTOR_SIZE)
                  (program_size + (bytes.take FLASH_SECTOR_SIZE).length)).2,
                actionOffset a ≠ none) := by
          rcases Nat.lt_or_ge FLASH_SECTOR_SIZE bytes.length with hc | hc
          · have hlen4096 : (bytes.take FLASH_SECTOR_SIZE).length = FLASH_SECTOR_SIZE := by omega
            have halign : (program_size + (bytes.take FLASH_SECTOR_SIZE).length) %
                FLASH_SECTOR_SIZE = 0 := by
              rw [hlen4096, hsec]
              rw [hsec] at hps
              omega
            have hltn : (bytes.drop FLASH_SECTOR_SIZE).length ≤ n := by
              rw [List.length_drop]
              omega
            obtain ⟨h1, h2, h3, h4, _⟩ := ih _ hltn _ halign
            exact ⟨h1, h2, h3, h4⟩
          · have hdrop : bytes.drop FLASH_SECTOR_SIZE = [] :=
              List.drop_eq_nil_of_le hc
            rw [hdrop, load_loop.eq_def]
            simp [writeOffsets, eraseOffsets]
        obtain ⟨H1, H2, H3, H4⟩ := Htr
        refine ⟨?_, ?_, ?_, ?_, ?_⟩
        · intro o ho
          simp only [writeOffsets, List.filterMap_cons, actionOffset] at ho
          simp only [List.mem_cons] at ho
          rcases ho with rfl | rfl | ho
          · refine ⟨Nat.le_refl _, by omega, by rw [hsec] at hps ⊢; omega⟩
          · refine ⟨Nat.le_refl _, by omega, by rw [hsec] at hps ⊢; omega⟩
          · obtain ⟨ho1, ho2, ho3⟩ := H1 o ho
            exact ⟨by omega, ho2, ho3⟩
        · simp only [writeOffsets, List.filterMap_cons, actionOffset]
          refine List.pairwise_cons.mpr ⟨?_, List.pairwise_cons.mpr ⟨?_, H2⟩⟩
          · intro o ho
            simp only [List.mem_cons] at ho
            rcases ho with rfl | ho
            · exact Nat.le_refl _
            · exact le_trans (by omega) (H1 o ho).1
          · intro o ho
            exact le_trans (by omega) (H1 o ho).1
        · simp only [eraseOffsets, List.filterMap_cons, eraseOffset]
          refine List.pairwise_cons.mpr ⟨?_, H3⟩
          intro o ho
          have := (H1 o (mem_writeOffsets_of_mem_eraseOffsets ho)).1
          omega
        · intro a ha
          simp only [List.mem_cons] at ha
          rcases ha with rfl | rfl | ha
          · simp [actionOffset]
          · simp [actionOffset]
          · exact H4 a ha
        · right
          refine ⟨(base + program_size) ::
            writeOffsets (load_loop base maxApp (bytes.drop FLASH_SECTOR_SIZE)
              (program_size + (bytes.take FLASH_SECTOR_SIZE).length)).2, ?_⟩
          simp [writeOffsets, List.filterMap_cons, actionOffset]

/-- Claim C3: over every input and environment, the erase and program
calls issued by `load_program` target offsets that are sector-aligned
relative to `FlashRegion`'s base (`SD_BOOT_FLASH_OFFSET`), start at that
base, never decrease (each chunk's erase and program share one offset,
successive chunks' offsets strictly increase), and all lie strictly
below `base + MAX_APP_SIZE` — so no call targets an offset at or beyond
the region's capacity, for oversized and boundary-sized inputs
included. -/
theorem load_program_write_call_sequence (cfg : Config) (env : LoadEnv)
    (content : List Nat) :
    (∀ o ∈ writeOffsets (load_program cfg env content).2,
        cfg.sdBootFlashOffset ≤ o ∧ o < cfg.sdBootFlashOffset + cfg.maxAppSize ∧
          (o - cfg.sdBootFlashOffset) % FLASH_SECTOR_SIZE = 0)
    ∧ List.Pairwise (· ≤ ·) (writeOffsets (load_program cfg env content).2)
    ∧ List.Pairwise (· < ·) (eraseOffsets (load_program cfg env content).2)
    ∧ (writeOffsets (load_program cfg env content).2 = [] ∨
        ∃ t, writeOffsets (load_program cfg env content).2 =
          cfg.sdBootFlashOffset :: t) := by
  have key := load_loop_trace_invariant cfg.sdBootFlashOffset cfg.maxAppSize
    content.length content (Nat.le_refl _) 0 (Nat.zero_mod _)
  unfold load_program
  by_cases h1 : env.openOk = true
  case neg =>
    simp [h1, writeOffsets, eraseOffsets]
  case pos =>
    by_cases h2 : env.seekEndOk = true
    case neg =>
      simp [h1, h2, writeOffsets, eraseOffsets]
    case pos =>
      simp only [h1, h2, Bool.not_true, Bool.false_eq_true, if_false]
      by_cases h3 : (if env.ftellOk then (content.length : Int) else -1) ≤ 0
      · rw [if_pos h3]
        simp [writeOffsets, eraseOffsets]
      · rw [if_neg h3]
        by_cases h4 : (if env.ftellOk then (content.length : Int) else -1) >
            (cfg.maxAppSize : Int)
        · rw [if_pos h4]
          simp [writeOffsets, eraseOffsets]
        · rw [if_neg h4]
          by_cases h5 : env.seekSetOk = true
          case neg =>
            simp [h5, writeOffsets, eraseOffsets]
          case pos =>
            simp only [h5, Bool.not_true, Bool.false_eq_true, if_false]
            obtain ⟨k1, k2, k3, _, k5⟩ := key
            refine ⟨?_, k2, k3, ?_⟩
            · intro o ho
              have := k1 o ho
              omega
            · rcases k5 with k5 | ⟨t, k5⟩
              · exact Or.inl k5
              · right
                refine ⟨t, ?_⟩
                rw [k5]
                norm_num

/-- Witness for C3 at a concrete input: a 3-byte file into a region of
8 sectors based at offset 8192 issues its erase and its program call at
offset 8192 — within bounds, sector-aligned, and first in the
sequence. -/
theorem load_program_write_call_sequence_witness :
    8192 ≤ 8192 ∧ 8192 < 8192 + 32768 ∧ (8192 - 8192) % FLASH_SECTOR_SIZE = 0 :=
  (load_program_write_call_sequence ⟨8192, 32768, 0x20040000, 0x200000⟩
      ⟨true, true, true, true⟩ [1, 2, 3]).1 8192 (by
    have h0 : load_loop 8192 32768 [1, 2, 3] 0 =
        (.ok, [.flashErase 8192 FLASH_SECTOR_SIZE, .flashProgram 8192 [1, 2, 3]]) := by
      rw [load_loop.eq_def]
      norm_num [FLASH_SECTOR_SIZE, List.take_of_length_le, List.drop_eq_nil_of_le]
      rw [load_loop.eq_def]
      norm_num
      simp
    unfold load_program
    norm_num [h0, writeOffsets, actionOffset, List.filterMap_cons])

/-- Claim C7: posting any value outside the declared event set
`{MscStart, MscExit, EscPressed, CardRemoved}` (codes 1..4) returns
`false` and leaves the FIFO untouched, so only declared codes ever enter
the channel; `event_bus_get` on an empty channel returns the
`EVENT_NONE` sentinel, and when the dequeued raw word is outside the
declared set it is discarded and `EVENT_NONE` is returned. -/
theorem event_bus_rejects_and_filters :
    (∀ (event : Int) (f : Fifo), event ≤ EVENT_NONE ∨ EVENT_MAX ≤ event →
      event_bus_post event f = (false, f))
    ∧ (∀ (events : List Int) (f : Fifo),
        (∀ x ∈ f.q, 0 < x ∧ x < EVENT_MAX.toNat) →
        ∀ x ∈ (event_bus_postAll events f).q, 0 < x ∧ x < EVENT_MAX.toNat)
    ∧ (∀ f : Fifo, f.q = [] → event_bus_get f = (EVENT_NONE.toNat, f))
    ∧ (∀ (v : Nat) (rest : List Nat), ¬(0 < v ∧ v < EVENT_MAX.toNat) →
        event_bus_get ⟨v :: rest⟩ = (EVENT_NONE.toNat, ⟨rest⟩)) := by
  have hpost : ∀ (event : Int) (f : Fifo),
      (∀ x ∈ f.q, 0 < x ∧ x < EVENT_MAX.toNat) →
      ∀ x ∈ (event_bus_post event f).2.q, 0 < x ∧ x < EVENT_MAX.toNat := by
    intro event f hf x hx
    unfold event_bus_post at hx
    by_cases h1 : event ≤ EVENT_NONE ∨ EVENT_MAX ≤ event
    · rw [if_pos h1] at hx
      exact hf x hx
    · rw [if_neg h1] at hx
      by_cases h2 : multicore_fifo_wready f = true
      · rw [if_pos h2] at hx
        rcases List.mem_append.mp hx with h | h
        · exact hf x h
        · push_neg at h1
          simp only [List.mem_singleton] at h
          subst h
          simp only [EVENT_NONE, EVENT_MAX] at h1 ⊢
          constructor <;> omega
      · rw [if_neg h2] at hx
        exact hf x hx
  refine ⟨?_, ?_, ?_, ?_⟩
  · intro event f h
    unfold event_bus_post
    rw [if_pos h]
  · intro events
    induction events with
    | nil => intro f hf; simpa [event_bus_postAll] using hf
    | cons e es ih =>
      intro f hf
      have : event_bus_postAll (e :: es) f = event_bus_postAll es (event_bus_post e f).2 := rfl
      rw [this]
      exact ih _ (hpost e f hf)
  · intro f hf
    obtain ⟨q⟩ := f
    simp only at hf
    subst hf
    rfl
  · intro v rest h
    show (if 0 < v ∧ v < EVENT_MAX.toNat then v else EVENT_NONE.toNat, (⟨rest⟩ : Fifo)) = _
    rw [if_neg h]

/-- Witness for C7 at concrete inputs: code 7 is rejected on a FIFO
holding `[1]`; posting `[3, 99, 2]` to an empty FIFO leaves only
declared codes queued; `get` on an empty FIFO and on a FIFO headed by
the raw word 9 both return the sentinel. -/
theorem event_bus_rejects_and_filters_witness :
    event_bus_post 7 ⟨[1]⟩ = (false, ⟨[1]⟩)
    ∧ (∀ x ∈ (event_bus_postAll [3, 99, 2] ⟨[]⟩).q, 0 < x ∧ x < EVENT_MAX.toNat)
    ∧ event_bus_get ⟨[]⟩ = (EVENT_NONE.toNat, ⟨[]⟩)
    ∧ event_bus_get ⟨[9, 3]⟩ = (EVENT_NONE.toNat, ⟨[3]⟩) :=
  ⟨event_bus_rejects_and_filters.1 7 ⟨[1]⟩ (by decide),
   event_bus_rejects_and_filters.2.1 [3, 99, 2] ⟨[]⟩ (by decide),
   event_bus_rejects_and_filters.2.2.1 ⟨[]⟩ rfl,
   event_bus_rejects_and_filters.2.2.2 9 [3] (by decide)⟩

/-- Claim C8: `FSManager_mount` is idempotent — when already mounted it
is a no-op returning success, and mounting twice (in the same
environment) leaves the same state as mounting once; mounting with no
card present fails without changing state; `FSManager_unmount` is
idempotent and is the identity on an unmounted state. -/
theorem fs_manager_mount_unmount_idempotent :
    (∀ (cardIn fsOk : Bool) (s : FsmState), s.mounted = true →
      FSManager_mount cardIn fsOk s = (true, s))
    ∧ (∀ (cardIn fsOk : Bool) (s : FsmState),
        (FSManager_mount cardIn fsOk (FSManager_mount cardIn fsOk s).2).2 =
          (FSManager_mount cardIn fsOk s).2)
    ∧ (∀ (fsOk : Bool) (s : FsmState), s.mounted = false →
        FSManager_mount false fsOk s = (false, s))
    ∧ (∀ s : FsmState, FSManager_unmount (FSManager_unmount s) = FSManager_unmount s)
    ∧ (∀ s : FsmState, s.mounted = false → FSManager_unmount s = s) := by
  refine ⟨?_, ?_, ?_, ?_, ?_⟩
  · intro cardIn fsOk s h
    simp [FSManager_mount, h]
  · intro cardIn fsOk s
    obtain ⟨m⟩ := s
    cases m <;> cases cardIn <;> cases fsOk <;> rfl
  · intro fsOk s h
    simp [FSManager_mount, h]
  · intro s
    obtain ⟨m⟩ := s
    cases m <;> rfl
  · intro s h
    simp [FSManager_unmount, h]

/-- Witness for C8 at concrete states: re-mounting a mounted manager is
a no-op success; mounting with the card absent fails and changes
nothing; unmounting an unmounted manager changes nothing. -/
theorem fs_manager_mount_unmount_idempotent_witness :
    FSManager_mount true true ⟨true⟩ = (true, ⟨true⟩)
    ∧ FSManager_mount false true ⟨false⟩ = (false, ⟨false⟩)
    ∧ FSManager_unmount ⟨false⟩ = ⟨false⟩ :=
  ⟨fs_manager_mount_unmount_idempotent.1 true true ⟨true⟩ rfl,
   fs_manager_mount_unmount_idempotent.2.2.1 true ⟨false⟩ rfl,
   fs_manager_mount_unmount_idempotent.2.2.2.2 ⟨false⟩ rfl⟩

/-- Claim C5: `is_valid_application` passes iff header word 0 (the
initial stack pointer) lies in the on-chip RAM range
`[0x20000000, MAX_RAM]` and header word 1 (the reset vector) lies in the
application flash window
`[XIP_BASE + SD_BOOT_FLASH_OFFSET, XIP_BASE + PICO_FLASH_SIZE_BYTES]`
(both bounds inclusive, per main.c:210/217).  The model is a pure
function of the two header words, so the check has no side effects and
is stable under repetition. -/
theorem is_valid_application_iff_bounds (cfg : Config) (sp rv : Nat) :
    is_valid_application cfg sp rv = true ↔
      ((0x20000000 ≤ sp ∧ sp ≤ cfg.maxRam) ∧
       (0x10000000 + cfg.sdBootFlashOffset ≤ rv ∧ rv ≤ 0x10000000 + cfg.flashSizeBytes)) := by
  unfold is_valid_application
  split_ifs with h1 h2 <;> simp <;> omega

/-- Claim C6: a READ10 or WRITE10 request arriving while the SD card is
absent fails with return value `-1` and sense data
"medium not ready" (`SCSI_SENSE_NOT_READY`, ASC 0x3A), issues no
operation to the block device, and leaves the adapter state unchanged. -/
theorem msc_rw_fail_when_medium_absent (env : MscEnv) (st : MscState)
    (lba offset bufsize : Nat) (data : Nat → Nat)
    (habsent : env.cardInserted = false) :
    tud_msc_read10_cb env st lba offset bufsize =
      { ret := -1, st := st, ops := [], sense := some SENSE_NOT_READY, out := none }
    ∧ tud_msc_write10_cb env st lba offset data bufsize =
      { ret := -1, st := st, ops := [], sense := some SENSE_NOT_READY, out := none } := by
  constructor
  · unfold tud_msc_read10_cb
    rw [habsent]
    rfl
  · unfold tud_msc_write10_cb
    rw [habsent]
    rfl

/-- Witness for C6: with the card-detect line reporting no card, both
callbacks reject the request with NOT READY sense and an empty device
operation trace. -/
theorem msc_rw_fail_when_medium_absent_witness :
    tud_msc_read10_cb ⟨false, fun _ _ => 0, true, true, 512⟩
        ⟨fun _ => 0, fun _ => 0, 0, 0⟩ 3 0 512 =
      { ret := -1, st := ⟨fun _ => 0, fun _ => 0, 0, 0⟩, ops := [],
        sense := some SENSE_NOT_READY, out := none }
    ∧ tud_msc_write10_cb ⟨false, fun _ _ => 0, true, true, 512⟩
        ⟨fun _ => 0, fun _ => 0, 0, 0⟩ 3 0 (fun _ => 0) 512 =
      { ret := -1, st := ⟨fun _ => 0, fun _ => 0, 0, 0⟩, ops := [],
        sense := some SENSE_NOT_READY, out := none } :=
  msc_rw_fail_when_medium_absent ⟨false, fun _ _ => 0, true, true, 512⟩
    ⟨fun _ => 0, fun _ => 0, 0, 0⟩ 3 0 512 (fun _ => 0) rfl

/-- Claim C10: a READ10 callback with nonzero `offset` issues no device
read and serves the bytes from the cached sector buffer at that offset —
its entire result is independent of the `lba` argument and the adapter
state is unchanged; a device read into the cache is issued exactly on
calls with `offset = 0`. -/
theorem msc_read10_serves_split_reads_from_cache (env : MscEnv) (st : MscState)
    (lba lba' offset bufsize : Nat) :
    (env.cardInserted = true → offset ≠ 0 →
      tud_msc_read10_cb env st lba offset bufsize =
        { ret := 1, st := st, ops := [], sense := none,
          out := some fun j => st.readBuf (offset + j) })
    ∧ (env.cardInserted = true → offset ≠ 0 →
        tud_msc_read10_cb env st lba offset bufsize =
          tud_msc_read10_cb env st lba' offset bufsize)
    ∧ (env.cardInserted = true → offset = 0 →
        (tud_msc_read10_cb env st lba offset bufsize).ops = [.read lba]) := by
  refine ⟨?_, ?_, ?_⟩
  · intro hcard hoff
    unfold tud_msc_read10_cb
    rw [hcard, if_neg (by simp), if_neg hoff]
  · intro hcard hoff
    unfold tud_msc_read10_cb
    rw [hcard, if_neg (by simp), if_neg hoff, if_neg (by simp), if_neg hoff]
  · intro hcard hoff
    unfold tud_msc_read10_cb
    rw [hcard, if_neg (by simp), if_pos hoff]
    by_cases hr : env.devReadOk = true
    · rw [if_pos hr]
    · rw [if_neg hr]

/-- Witness for C10: with the card present, a call at `offset = 256`
reads nothing from the device and copies out of the cache — identically
for `lba = 3` and `lba = 77` — while a call at `offset = 0` issues
exactly one device read of its `lba`. -/
theorem msc_read10_serves_split_reads_from_cache_witness :
    (tud_msc_read10_cb ⟨true, fun _ _ => 0, true, true, 512⟩
        ⟨fun i => i, fun _ => 0, 0, 0⟩ 3 256 64 =
      { ret := 1, st := ⟨fun i => i, fun _ => 0, 0, 0⟩, ops := [], sense := none,
        out := some fun j => (fun i => i : Nat → Nat) (256 + j) })
    ∧ (tud_msc_read10_cb ⟨true, fun _ _ => 0, true, true, 512⟩
        ⟨fun i => i, fun _ => 0, 0, 0⟩ 3 256 64 =
       tud_msc_read10_cb ⟨true, fun _ _ => 0, true, true, 512⟩
        ⟨fun i => i, fun _ => 0, 0, 0⟩ 77 256 64)
    ∧ (tud_msc_read10_cb ⟨true, fun _ _ => 0, true, true, 512⟩
        ⟨fun i => i, fun _ => 0, 0, 0⟩ 3 0 64).ops = [.read 3] :=
  ⟨(msc_read10_serves_split_reads_from_cache ⟨true, fun _ _ => 0, true, true, 512⟩
      ⟨fun i => i, fun _ => 0, 0, 0⟩ 3 77 256 64).1 rfl (by decide),
   (msc_read10_serves_split_reads_from_cache ⟨true, fun _ _ => 0, true, true, 512⟩
      ⟨fun i => i, fun _ => 0, 0, 0⟩ 3 77 256 64).2.1 rfl (by decide),
   (msc_read10_serves_split_reads_from_cache ⟨true, fun _ _ => 0, true, true, 512⟩
      ⟨fun i => i, fun _ => 0, 0, 0⟩ 3 77 0 64).2.2 rfl rfl⟩

/-- Claim C4: with the file opened, a failed size query (`fseek` to end
failing, or `ftell` returning `-1`), a zero size, and a size exceeding
`MAX_APP_SIZE` each make `load_program` fail — as `invalidSize`
respectively `tooLarge` — with an empty flash trace; and an empty trace
leaves the resident flash, in particular the two application header
words, unchanged. -/
theorem load_program_rejects_bad_sizes (cfg : Config) (env : LoadEnv)
    (content : List Nat) (flash : Nat → Nat) (hopen : env.openOk = true) :
    (env.seekEndOk = false → load_program cfg env content = (.invalidSize, []))
    ∧ (env.seekEndOk = true → env.ftellOk = false →
        load_program cfg env content = (.invalidSize, []))
    ∧ (env.seekEndOk = true → env.ftellOk = true → content.length = 0 →
        load_program cfg env content = (.invalidSize, []))
    ∧ (env.seekEndOk = true → env.ftellOk = true → cfg.maxAppSize < content.length →
        load_program cfg env content = (.tooLarge, []))
    ∧ ((load_program cfg env content).2 = [] →
        applyTrace flash (load_program cfg env content).2 = flash ∧
        readWord32 (applyTrace flash (load_program cfg env content).2)
          cfg.sdBootFlashOffset = readWord32 flash cfg.sdBootFlashOffset ∧
        readWord32 (applyTrace flash (load_program cfg env content).2)
          (cfg.sdBootFlashOffset + 4) = readWord32 flash (cfg.sdBootFlashOffset + 4)) := by
  refine ⟨?_, ?_, ?_, ?_, ?_⟩
  · intro h
    simp [load_program, hopen, h]
  · intro h1 h2
    simp [load_program, hopen, h1, h2]
  · intro h1 h2 h3
    simp [load_program, hopen, h1, h2, h3]
  · intro h1 h2 h4
    have hA : ¬((content.length : Int) ≤ 0) := by omega
    have hB : (cfg.maxAppSize : Int) < (content.length : Int) := by omega
    simp [load_program, hopen, h1, h2, hA, hB]
  · intro h
    rw [h]
    exact ⟨rfl, rfl, rfl⟩

/-- Witness for C4 at concrete inputs: a failed size query, an empty
file, and a 33000-byte file against a 32768-byte region each fail with
no flash call, and the empty trace leaves flash untouched. -/
theorem load_program_rejects_bad_sizes_witness :
    load_program cfgW ⟨true, false, true, true⟩ [7] = (.invalidSize, [])
    ∧ load_program cfgW envW [] = (.invalidSize, [])
    ∧ load_program cfgW envW (List.replicate 33000 0) = (.tooLarge, [])
    ∧ applyTrace (fun _ => 0) (load_program cfgW envW []).2 = (fun _ => 0) :=
  ⟨(load_program_rejects_bad_sizes cfgW ⟨true, false, true, true⟩ [7] (fun _ => 0) rfl).1 rfl,
   (load_program_rejects_bad_sizes cfgW envW [] (fun _ => 0) rfl).2.2.1 rfl rfl rfl,
   (load_program_rejects_bad_sizes cfgW envW (List.replicate 33000 0) (fun _ => 0)
      rfl).2.2.2.1 rfl rfl (by norm_num [cfgW]),
   ((load_program_rejects_bad_sizes cfgW envW [] (fun _ => 0) rfl).2.2.2.2 (by
      rw [(load_program_rejects_bad_sizes cfgW envW [] (fun _ => 0) rfl).2.2.1 rfl rfl rfl])).1⟩

/-- Claim C9: any selected path that does not end in `".bin"` — paths
shorter than the extension included — is rejected by the final-selection
callback before any flash access: the trace is exactly one status
update, whose message contains the phrase "not a .bin file", with no
flash call and no launch. -/
theorem final_selection_rejects_non_bin (cfg : Config) (env : LoadEnv)
    (content : List Nat) (flash : Nat → Nat) (path : List Char)
    (h : path.length < 4 ∨ path.drop (path.length - 4) ≠ ['.', 'b', 'i', 'n']) :
    final_selection_callback cfg env content flash path =
      [.setStatus "Err: FILE is not a .bin file"]
    ∧ (∀ a ∈ final_selection_callback cfg env content flash path,
        actionOffset a = none ∧ a ≠ .launch)
    ∧ "not a .bin file".data <:+: "Err: FILE is not a .bin file".data := by
  have h1 : final_selection_callback cfg env content flash path =
      [.setStatus "Err: FILE is not a .bin file"] := by
    unfold final_selection_callback
    rw [if_pos h]
  refine ⟨h1, ?_, ?_⟩
  · intro a ha
    rw [h1] at ha
    simp only [List.mem_singleton] at ha
    subst ha
    exact ⟨rfl, by simp⟩
  · exact ⟨"Err: FILE is ".data, [], by decide⟩

/-- Witness for C9 at the concrete path `notes.txt`: the selection is
rejected with the status message and nothing else happens. -/
theorem final_selection_rejects_non_bin_witness :
    final_selection_callback cfgW envW [] (fun _ => 0)
      ['n', 'o', 't', 'e', 's', '.', 't', 'x', 't'] =
      [.setStatus "Err: FILE is not a .bin file"] :=
  (final_selection_rejects_non_bin cfgW envW [] (fun _ => 0)
    ['n', 'o', 't', 'e', 's', '.', 't', 'x', 't'] (by decide)).1

/-- Helper: `load_program` either fails before the copy loop with an
empty trace, or its trace is the loop's trace from offset 0. -/
lemma load_program_trace_cases (cfg : Config) (env : LoadEnv) (content : List Nat) :
    (load_program cfg env content).2 = [] ∨
      (load_program cfg env content).2 =
        (load_loop cfg.sdBootFlashOffset cfg.maxAppSize content 0).2 := by
  unfold load_program
  split_ifs <;> simp <;> split_ifs <;> simp

/-- Helper: every action emitted by `load_program` is a flash
erase/program call; in particular the loader itself never emits a
launch, status, sleep or reboot action. -/
lemma load_program_actions_are_flash_calls (cfg : Config) (env : LoadEnv)
    (content : List Nat) :
    ∀ a ∈ (load_program cfg env content).2, actionOffset a ≠ none := by
  rcases load_program_trace_cases cfg env content with h | h <;> rw [h]
  · simp
  · exact (load_loop_trace_invariant cfg.sdBootFlashOffset cfg.maxAppSize
      content.length content (Nat.le_refl _) 0 (Nat.zero_mod _)).2.2.2.1

/-- Claim C2 (amended): `load_firmware_by_path` attempts the launch iff
the fresh load succeeded or the image resident after the load attempt
validates — a freshly loaded image is launched without re-validation
(main.c:240, `load_success || has_valid_app`).  Only when the load
fails and the resident image does not validate does it refrain from
launching, and then it displays "ERR: No valid app", waits 2000 ms and
performs the watchdog restart. -/
theorem load_firmware_launch_guard (cfg : Config) (env : LoadEnv)
    (content : List Nat) (flash : Nat → Nat) :
    (Action.launch ∈ (load_firmware_by_path cfg env content flash).1 ↔
      ((load_program cfg env content).1 = .ok ∨
        is_valid_application cfg
          (readWord32 (load_firmware_by_path cfg env content flash).2
            cfg.sdBootFlashOffset)
          (readWord32 (load_firmware_by_path cfg env content flash).2
            (cfg.sdBootFlashOffset + 4)) = true))
    ∧ ((load_program cfg env content).1 ≠ .ok →
        is_valid_application cfg
          (readWord32 (load_firmware_by_path cfg env content flash).2
            cfg.sdBootFlashOffset)
          (readWord32 (load_firmware_by_path cfg env content flash).2
            (cfg.sdBootFlashOffset + 4)) = false →
        Action.launch ∉ (load_firmware_by_path cfg env content flash).1 ∧
          (load_firmware_by_path cfg env content flash).1 =
            .setStatus "STAT: loading app..." :: (load_program cfg env content).2 ++
              [.setStatus "ERR: No valid app", .sleepMs 2000, .watchdogReboot]) := by
  have hflash : (load_firmware_by_path cfg env content flash).2 =
      applyTrace flash (load_program cfg env content).2 := rfl
  have hnol : Action.launch ∉ (load_program cfg env content).2 := by
    intro hmem
    exact load_program_actions_are_flash_calls cfg env content _ hmem rfl
  by_cases hc : (load_program cfg env content).1 = LoadResult.ok ∨
      is_valid_application cfg
        (readWord32 (applyTrace flash (load_program cfg env content).2)
          cfg.sdBootFlashOffset)
        (readWord32 (applyTrace flash (load_program cfg env content).2)
          (cfg.sdBootFlashOffset + 4)) = true
  · have htr : (load_firmware_by_path cfg env content flash).1 =
        .setStatus "STAT: loading app..." :: (load_program cfg env content).2 ++
          [.setStatus "STAT: launching app...", .sleepMs 100, .launch] := by
      simp only [load_firmware_by_path]
      rw [if_pos hc]
    constructor
    · rw [htr, hflash]
      simp only [List.mem_cons, List.mem_append, List.mem_singleton]
      constructor
      · intro _
        exact hc
      · intro _
        simp
    · intro h1 h2
      rw [hflash] at h2
      rcases hc with hc | hc
      · exact absurd hc h1
      · rw [hc] at h2
        cases h2
  · have htr : (load_firmware_by_path cfg env content flash).1 =
        .setStatus "STAT: loading app..." :: (load_program cfg env content).2 ++
          [.setStatus "ERR: No valid app", .sleepMs 2000, .watchdogReboot] := by
      simp only [load_firmware_by_path]
      rw [if_neg hc]
    have hnomem : Action.launch ∉ (load_firmware_by_path cfg env content flash).1 := by
      rw [htr]
      intro hmem
      rcases List.mem_cons.mp hmem with h | hmem2
      · exact Action.noConfusion h
      rcases List.mem_append.mp hmem2 with h | h
      · exact hnol h
      · simp at h
    constructor
    · rw [hflash]
      exact ⟨fun hmem => absurd hmem hnomem, fun hor => absurd hor hc⟩
    · intro _ _
      exact ⟨hnomem, htr⟩

/-- Witness for the amended C2 at a concrete input: with `fopen`
failing and all-zero resident flash (header words 0, 0, which fail
validation), no launch occurs and the trace ends in the error status,
the 2000 ms delay and the watchdog reboot. -/
theorem load_firmware_launch_guard_witness :
    Action.launch ∉ (load_firmware_by_path cfgW ⟨false, true, true, true⟩ []
      (fun _ => 0)).1 ∧
    (load_firmware_by_path cfgW ⟨false, true, true, true⟩ [] (fun _ => 0)).1 =
      .setStatus "STAT: loading app..." ::
        (load_program cfgW ⟨false, true, true, true⟩ []).2 ++
        [.setStatus "ERR: No valid app", .sleepMs 2000, .watchdogReboot] :=
  (load_firmware_launch_guard cfgW ⟨false, true, true, true⟩ [] (fun _ => 0)).2
    (by decide) (by decide)

/-- Claim C2 counterexample: the all-zero 8-byte file loads
successfully, leaving header words (0, 0) resident, which
`is_valid_application` rejects — so neither the freshly loaded image
nor the pre-existing (all-zero) resident image validates — yet
`load_firmware_by_path` still emits the launch, because main.c:240
launches on `load_success || has_valid_app` and `load_success` alone
suffices.  This refutes the claim that the system never attempts a
launch when `isValidApplication` fails on the resident header. -/
theorem load_firmware_launches_unvalidated_image :
    (load_program cfgW envW [0, 0, 0, 0, 0, 0, 0, 0]).1 = .ok
    ∧ is_valid_application cfgW (readWord32 (fun _ => 0) cfgW.sdBootFlashOffset)
        (readWord32 (fun _ => 0) (cfgW.sdBootFlashOffset + 4)) = false
    ∧ is_valid_application cfgW
        (readWord32 (load_firmware_by_path cfgW envW [0, 0, 0, 0, 0, 0, 0, 0]
          (fun _ => 0)).2 cfgW.sdBootFlashOffset)
        (readWord32 (load_firmware_by_path cfgW envW [0, 0, 0, 0, 0, 0, 0, 0]
          (fun _ => 0)).2 (cfgW.sdBootFlashOffset + 4)) = false
    ∧ Action.launch ∈ (load_firmware_by_path cfgW envW [0, 0, 0, 0, 0, 0, 0, 0]
        (fun _ => 0)).1 := by
  have h0 : load_loop 8192 32768 [0, 0, 0, 0, 0, 0, 0, 0] 0 =
      (.ok, [.flashErase 8192 FLASH_SECTOR_SIZE,
             .flashProgram 8192 [0, 0, 0, 0, 0, 0, 0, 0]]) := by
    rw [load_loop.eq_def]
    norm_num [FLASH_SECTOR_SIZE, List.take_of_length_le, List.drop_eq_nil_of_le]
    rw [load_loop.eq_def]
    norm_num
    simp
  have h1 : load_program cfgW envW [0, 0, 0, 0, 0, 0, 0, 0] =
      (.ok, [.flashErase 8192 FLASH_SECTOR_SIZE,
             .flashProgram 8192 [0, 0, 0, 0, 0, 0, 0, 0]]) := by
    unfold load_program
    norm_num [envW, cfgW, h0]
  have h2 : (load_firmware_by_path cfgW envW [0, 0, 0, 0, 0, 0, 0, 0]
      (fun _ => 0)).2 = applyTrace (fun _ => 0)
        [.flashErase 8192 FLASH_SECTOR_SIZE,
         .flashProgram 8192 [0, 0, 0, 0, 0, 0, 0, 0]] := by
    show applyTrace (fun _ => 0) (load_program cfgW envW [0, 0, 0, 0, 0, 0, 0, 0]).2 = _
    rw [h1]
  refine ⟨by rw [h1], by decide, ?_, ?_⟩
  · rw [h2]
    norm_num [applyTrace, applyAction, readWord32, is_valid_application,
      FLASH_SECTOR_SIZE, cfgW]
  · unfold load_firmware_by_path
    rw [h1]
    simp

/-- Helper: inductive strengthening of the ownership invariant — the
two sides never hold the device together, after `fs_deinit` the
filesystem side holds nothing, and after `usb_msc_stop` the MSC side
holds nothing. -/
lemma reachable_ownership_invariant {s : SysState} (h : Reachable s) :
    ¬(s.fsOwns = true ∧ s.mscOwns = true)
    ∧ (s.loc = .deinited → s.fsOwns = false)
    ∧ (s.loc = .mscStopped → s.mscOwns = false) := by
  induction h with
  | init => exact ⟨by simp [initState], by simp [initState], by simp [initState]⟩
  | step _ hstep ih =>
    obtain ⟨ih1, ih2, ih3⟩ := ih
    cases hstep with
    | uiExit f m e => exact ⟨by simp, by simp, by simp⟩
    | mscInit f m e =>
      have hf : f = false := ih2 rfl
      subst hf
      exact ⟨by simp, by simp, by simp⟩
    | tudTask f m => exact ⟨ih1, by simp, by simp⟩
    | exitEvent f m => exact ⟨ih1, by simp, by simp⟩
    | mscStop f m => exact ⟨by simp, by simp, by simp⟩
    | remountOk f m e =>
      have hm : m = false := ih3 rfl
      subst hm
      exact ⟨by simp, by simp, by simp⟩
    | remountFail f m e => exact ⟨ih1, by simp, by simp⟩

/-- Claim C1 (amended): in every state reachable from the post-startup
state, the filesystem side and the MSC adapter never both hold the SD
block device — "filesystem mounted" and "mass-storage adapter owns
device" never hold simultaneously.  The transition relation itself
embeds the required ordering: `fs_deinit` precedes `usb_msc_init` and
`usb_msc_stop` precedes the remount `fs_init`, across all transition
sequences including card removal during MSC mode (`exitEvent`).  During
the hand-over states the device is held by neither side, so ownership is
at most one, not exactly one, at any instant. -/
theorem mode_arbiter_mutual_exclusion {s : SysState} (h : Reachable s) :
    ¬(s.fsOwns = true ∧ s.mscOwns = true) :=
  (reachable_ownership_invariant h).1

/-- Witness for C1 (amended) at a concrete reachable state: after
browsing, `fs_deinit` and `usb_msc_init`, the system is in MSC mode and
the two sides do not both own the device. -/
theorem mode_arbiter_mutual_exclusion_witness :
    ¬((⟨.mscActive, false, true, false⟩ : SysState).fsOwns = true ∧
      (⟨.mscActive, false, true, false⟩ : SysState).mscOwns = true) :=
  mode_arbiter_mutual_exclusion
    (Reachable.step (Reachable.step Reachable.init (Step.uiExit true false false))
      (Step.mscInit false false false))

/-- Claim C1 counterexample: the claim's "owned by exactly one of the
two managers at any instant" is false — directly after
`text_directory_ui_run` returns and `fs_deinit()` frees the filesystem's
block device (main.c:356), and before `usb_msc_init()` runs, a reachable
state exists in which neither the filesystem side nor the MSC side holds
the device (`sd == NULL` and `msc_blockdev == NULL`). -/
theorem mode_arbiter_neither_owner_reachable :
    Reachable ⟨.deinited, false, false, false⟩
    ∧ (⟨.deinited, false, false, false⟩ : SysState).fsOwns = false
    ∧ (⟨.deinited, false, false, false⟩ : SysState).mscOwns = false :=
  ⟨Reachable.step Reachable.init (Step.uiExit true false false), rfl, rfl⟩

end PicocalcSDBoot
